/-
Verification of the swipe-navigation core (configuration model, resilient
DOM-node resolver, gesture & navigation engine) against its specification.

The definitions below are a shallow embedding of the TypeScript source:
  * `Config`, `RawValue`, `parseConfigE`, `readConfig`  embed the `Config`
    class (schema validation, parsing with defaults, change notification);
  * `PageObjectState`, `getDomNode`, `invalidateDomNode`, `refreshDomNode`
    embed the `PageObject` resolver (stale detection, invalidation,
    re-resolution, observer/callback side effects as an event trace);
  * `SwipeState`, `handleTouchStart`, `handlePointerMove`,
    `handlePointerEnd`, `getNextTabIndex` embed the `SwipeManager`
    gesture state machine and target-tab search.

JavaScript numbers are modelled as `ℚ` (the relevant arithmetic is exact),
`null`/`undefined` as `Option`, and `JSON.stringify`-based deep equality as
structural equality of the corresponding Lean values.
-/
import Mathlib

namespace SwipeNav

/-- Modelled from the spec: the log-level type of the external logging
subsystem (a leveled sink, out of scope); only the five levels named in the
configuration contract are relevant here. -/
inductive LogLevel
  | verbose
  | debug
  | info
  | warn
  | error
deriving DecidableEq, Repr

/-- Strips every whitespace character, embedding
`String(...).replace(/\s+/g, "")` (ASCII whitespace classes of `\s`). -/
def isJsWhitespace (c : Char) : Bool :=
  c = ' ' || c = '\t' || c = '\n' || c = '\r' || c = '\x0b' || c = '\x0c'

def stripWhitespace (s : String) : String :=
  String.mk (s.data.filter (fun c => !isJsWhitespace c))

def digitsValue (ds : List Char) : Nat :=
  ds.foldl (fun acc c => acc * 10 + (c.toNat - '0'.toNat)) 0

/-- Leading radix-10 digit run of `parseInt`; `none` when there is none. -/
def leadingDigitsValue (cs : List Char) : Option Nat :=
  let ds := cs.takeWhile (fun c => c.isDigit)
  if ds.isEmpty then none else some (digitsValue ds)

/-- Embeds JavaScript `parseInt(item)` on whitespace-free input: an optional
sign followed by leading decimal digits; `none` stands for `NaN`. -/
def jsParseInt (s : String) : Option Int :=
  match s.data with
  | '-' :: rest => (leadingDigitsValue rest).map (fun n => -(n : Int))
  | '+' :: rest => (leadingDigitsValue rest).map (fun n => (n : Int))
  | cs => (leadingDigitsValue cs).map (fun n => (n : Int))

/-- `"...".split(",")`: split at every comma, keeping empty pieces, as
JavaScript does (`"".split(",")` is `[""]`). -/
def splitOnComma : List Char → List String
  | [] => [""]
  | c :: rest =>
    match splitOnComma rest with
    | [] => [""]
    | piece :: pieces =>
      if c = ',' then "" :: piece :: pieces
      else String.mk (c :: piece.data) :: pieces

/-- Embeds `String(skip_tabs).replace(/\s+/g, "").split(",").map(parseInt)`.
Entries are `Option Int`, `none` standing for `NaN`. -/
def parseSkipTabs (s : String) : List (Option Int) :=
  (splitOnComma (stripWhitespace s).data).map jsParseInt

/-- The settings snapshot: the fields and defaults of the `Config` class.
`animate` keeps its run-time string representation. -/
structure Config where
  animate : String := "none"
  animate_duration : ℚ := 200
  enable : Bool := true
  enable_mouse_swipe : Bool := false
  logger_level : LogLevel := .warn
  prevent_default : Bool := false
  skip_hidden : Bool := true
  skip_tabs : List (Option Int) := []
  swipe_amount : ℚ := 15 / 100
  wrap : Bool := true
deriving DecidableEq, Repr

/-- The recognized fields of the raw `swipe_nav` section, each optional.
Enum-like fields keep their raw strings; `skip_tabs` is the
`String(...)`-coerced value. -/
structure RawFields where
  animate : Option String := none
  animate_duration : Option ℚ := none
  enable : Option Bool := none
  enable_mouse_swipe : Option Bool := none
  logger_level : Option String := none
  prevent_default : Option Bool := none
  skip_hidden : Option Bool := none
  skip_tabs : Option String := none
  swipe_amount : Option ℚ := none
  wrap : Option Bool := none
deriving DecidableEq, Repr

/-- A fetched raw configuration value: either an object whose recognized
fields are well-typed, or a structurally ill-typed value (wrong field types,
arrays, primitives, ...), which the schema rejects; distinct `tag`s stand
for distinct such values. -/
inductive RawValue
  | obj (fields : RawFields)
  | illTyped (tag : Nat)
deriving DecidableEq, Repr

def validAnimateField : Option String → Bool
  | none => true
  | some s => s = "none" || s = "swipe" || s = "fade" || s = "flip"

def validLoggerLevelField : Option String → Bool
  | none => true
  | some s => s = "verbose" || s = "debug" || s = "info" || s = "warn" || s = "error"

/-- Embeds `SwipeNavigationConfigSchema.safeParse(obj).success`; the outer
`Option` is a possibly-`null` raw value (`null` fails the object schema). -/
def instanceOfSwipeNavigationConfig : Option RawValue → Bool
  | some (.obj f) => validAnimateField f.animate && validLoggerLevelField f.logger_level
  | some (.illTyped _) => false
  | none => false

/-- The `switch (rawConfig.logger_level)` dispatch: maps the five literal
strings, keeps the default on `null`/`undefined`, and throws
(`Except.error`) on any other string. -/
def loggerLevelSwitch (s : Option String) : Except String (Option LogLevel) :=
  match s with
  | none => .ok none
  | some v =>
    if v = "verbose" then .ok (some .verbose)
    else if v = "debug" then .ok (some .debug)
    else if v = "info" then .ok (some .info)
    else if v = "warn" then .ok (some .warn)
    else if v = "error" then .ok (some .error)
    else .error ("Unhandled case: " ++ v)

/-- The field-by-field override sequence of `Config.parseConfig`: start
from the defaulted `new Config()` and assign each present raw field (the
already-dispatched logger level is passed in). -/
def applyConfigFields (f : RawFields) (ll : Option LogLevel) : Config :=
  let c : Config := {}
  let c := match f.animate with | some v => { c with animate := v } | none => c
  let c := match f.animate_duration with
    | some v => { c with animate_duration := v } | none => c
  let c := match f.enable with | some v => { c with enable := v } | none => c
  let c := match f.enable_mouse_swipe with
    | some v => { c with enable_mouse_swipe := v } | none => c
  let c := match ll with | some v => { c with logger_level := v } | none => c
  let c := match f.prevent_default with
    | some v => { c with prevent_default := v } | none => c
  let c := match f.skip_hidden with | some v => { c with skip_hidden := v } | none => c
  let c := match f.skip_tabs with
    | some v => { c with skip_tabs := parseSkipTabs v } | none => c
  let c := match f.swipe_amount with
    | some v => { c with swipe_amount := v / 100 } | none => c
  match f.wrap with | some v => { c with wrap := v } | none => c

/-- Embeds `Config.parseConfig`: reject when schema validation fails
(returning `ok none`, the `null` result), otherwise override the defaults
field by field; the logger-level switch can in principle throw, and a throw
propagates (`Except.map`), aborting the whole parse. -/
def parseConfigE (rawConfig : Option RawValue) : Except String (Option Config) :=
  if instanceOfSwipeNavigationConfig rawConfig = false then .ok none
  else
    match rawConfig with
    | some (.obj f) =>
      (loggerLevelSwitch f.logger_level).map (fun ll => some (applyConfigFields f ll))
    | _ => .ok none

/-- `Config.parseConfig` as used by `readConfig`.  The `Except.error` case
is unreachable (see `parseConfigE_isOk`): the schema guard runs first, so
collapsing it loses nothing. -/
def parseConfig (rawConfig : Option RawValue) : Option Config :=
  match parseConfigE rawConfig with
  | .ok c => c
  | .error _ => none

/-- The static mutable state of the `Config` class: the last fetched raw
value (initially `null`), the current snapshot, and the registered
observers (identified by id, in registration order). -/
structure ConfigState where
  rawConfig : Option RawValue := none
  currentConfig : Config := {}
  configObservers : List Nat := []
deriving DecidableEq, Repr

/-- `Config.registerConfigObserver`: pushes onto the observer list. -/
def registerConfigObserver (s : ConfigState) (obs : Nat) : ConfigState :=
  { s with configObservers := s.configObservers ++ [obs] }

/-- `Config.unregisterConfigObserver`: `indexOf` + `splice(index, 1)`:
removes the first matching registration, or logs and leaves the list
unchanged when absent. -/
def unregisterConfigObserver (s : ConfigState) (obs : Nat) : ConfigState :=
  { s with configObservers := s.configObservers.erase obs }

/-- Embeds one run of `Config.readConfig` on a fetched raw value: compare
(`JSON.stringify`) with the previous raw value, store it, parse, compare
with the current snapshot, and either keep everything or install the new
snapshot and notify every observer in registration order.  The returned
list is the sequence of observer callbacks invoked. -/
def readConfig (s : ConfigState) (fetched : Option RawValue) :
    ConfigState × List Nat :=
  if fetched = s.rawConfig then (s, [])
  else
    let s1 := { s with rawConfig := fetched }
    match parseConfig fetched with
    | none => (s1, [])
    | some newConfig =>
      if newConfig = s1.currentConfig then (s1, [])
      else ({ s1 with currentConfig := newConfig }, s1.configObservers)

/-- One tab of the tab strip; `displayNone` is whether
`getComputedStyle(tab, null).display == "none"`. -/
structure Tab where
  displayNone : Bool := false
deriving DecidableEq, Repr, Inhabited

/-- The skip test of the search loop:
`Config.current().getSkipTabs().includes(nextTabIndex) ||
 (Config.current().getSkipHidden() && getComputedStyle(tabs[nextTabIndex], null).display == "none")`.
The index is in bounds whenever this is evaluated (see `getNextTabIndex_range`). -/
def shouldSkip (cfg : Config) (tabs : List Tab) (i : Int) : Bool :=
  cfg.skip_tabs.contains (some i)
    || (cfg.skip_hidden && (tabs.getD i.toNat default).displayNone)

/-- The wrap normalization at the top of the loop body: `-1` wraps to the
last index (or stays `-1` without wrap), `tabs.length` wraps to `0` (or
becomes `-1` without wrap). -/
def wrapIndex (cfg : Config) (len : Int) (next : Int) : Int :=
  if next = -1 then (if cfg.wrap then len - 1 else -1)
  else if next = len then (if cfg.wrap then 0 else -1)
  else next

/-- The `do ... while` of `SwipeManager.#getNextTabIndex`, with an explicit
fuel so that "at most one full cycle" is a provable statement: `-2` is the
out-of-fuel marker (proved unreachable at fuel `tabs.length + 1`,
see `nextTabLoop_no_fuel_exhaustion`).  Each round steps by `increment`,
wrap-normalizes, stops with `-1` on a completed cycle or an unwrapped edge,
recurses while the candidate must be skipped, and otherwise returns it. -/
def nextTabLoop (cfg : Config) (tabs : List Tab) (activeTabIndex increment : Int) :
    Nat → Int → Int
  | 0, _ => -2
  | fuel + 1, cur =>
    let next := wrapIndex cfg (tabs.length : Int) (cur + increment)
    if next = activeTabIndex then -1
    else if next = -1 then -1
    else if shouldSkip cfg tabs next then
      nextTabLoop cfg tabs activeTabIndex increment fuel next
    else next

/-- `directionLeft ? -1 : 1`. -/
def incrementOf (directionLeft : Bool) : Int :=
  if directionLeft then -1 else 1

/-- Embeds `SwipeManager.#getNextTabIndex`: `-1` when the active tab cannot
be determined, otherwise the search loop starting from the active index. -/
def getNextTabIndex (cfg : Config) (tabs : List Tab) (activeTabIndex : Int)
    (directionLeft : Bool) : Int :=
  if activeTabIndex = -1 then -1
  else
    nextTabLoop cfg tabs activeTabIndex (incrementOf directionLeft)
      (tabs.length + 1) activeTabIndex

/-- The four handled animation behaviours of `SwipeManager.#click`. -/
inductive ClickAnimation
  | immediate
  | swipe
  | fade
  | flip
deriving DecidableEq, Repr

/-- The animation-mode dispatch of `SwipeManager.#click`: `"none"` clicks
immediately, `"swipe"`/`"fade"`/`"flip"` run their animated sequences, and
any other string throws (`Except.error`) before any click is dispatched. -/
def clickAnimationDispatch (configAnimate : String) : Except String ClickAnimation :=
  if configAnimate = "none" then .ok .immediate
  else if configAnimate = "swipe" then .ok .swipe
  else if configAnimate = "fade" then .ok .fade
  else if configAnimate = "flip" then .ok .flip
  else .error ("Unhandled case: " ++ configAnimate)

/-- `Math.abs`. -/
def jsMathAbs (q : ℚ) : ℚ := if q < 0 then -q else q

/-- The static pointer-tracking state of `SwipeManager`: start coordinates
and last-computed deltas, `none` standing for `null`/`undefined`. -/
structure SwipeState where
  xDown : Option ℚ := none
  yDown : Option ℚ := none
  xDiff : Option ℚ := none
  yDiff : Option ℚ := none
deriving DecidableEq, Repr

/-- The DOM-derived environment a gesture runs in: the settings in force,
the screen width, the layout direction, the tab strip (with the active
index as `indexOf(.iron-selected)` computes it, `-1` when absent), and
whether the content-view node resolves. -/
structure GestureEnv where
  cfg : Config
  screenWidth : ℚ
  rtl : Bool
  tabs : List Tab
  activeTabIndex : Int
  viewPresent : Bool
deriving Repr

/-- A navigation side effect: the synthetic click dispatched on a tab. -/
inductive NavAction
  | click (index : Int)
deriving DecidableEq, Repr

/-- A pointer event as the attached listeners receive it.  `hitException`
abstracts the composed-path walk over the interactive-element denylist
(true when some element before the `HUI-VIEW` boundary matches it). -/
inductive PointerEvent
  | touchStart (touches : List (ℚ × ℚ)) (hitException : Bool)
  | touchMove (x y : ℚ)
  | touchEnd
  | mouseStart (x y : ℚ) (hitException : Bool)
  | mouseMove (x y : ℚ)
  | mouseEnd
deriving DecidableEq, Repr

/-- `SwipeManager.#handlePointerStart` for a `TouchEvent`: bail out when
swiping is disabled (no state change), clear only the start coordinates on
multitouch, bail out on a denylisted target, otherwise record the first
touch point as the start coordinates.  (A `touchstart` carries at least one
touch; an empty list leaves the state unchanged.) -/
def handleTouchStart (env : GestureEnv) (st : SwipeState)
    (touches : List (ℚ × ℚ)) (hitException : Bool) : SwipeState :=
  if env.cfg.enable = false then st
  else if touches.length > 1 then { st with xDown := none, yDown := none }
  else if hitException then st
  else
    match touches.head? with
    | some (x, y) => { st with xDown := some x, yDown := some y }
    | none => st

/-- `SwipeManager.#handlePointerStart` for a `MouseEvent`: bail out when
swiping is disabled, clear only the start coordinates when mouse swiping is
disabled, bail out on a denylisted target, otherwise record the start. -/
def handleMouseStart (env : GestureEnv) (st : SwipeState)
    (x y : ℚ) (hitException : Bool) : SwipeState :=
  if env.cfg.enable = false then st
  else if env.cfg.enable_mouse_swipe = false then { st with xDown := none, yDown := none }
  else if hitException then st
  else { st with xDown := some x, yDown := some y }

/-- `SwipeManager.#handlePointerMove`: recompute the deltas, but only when
both start coordinates are truthy (non-`null` and non-zero, per JavaScript
truthiness of `this.#xDown && this.#yDown`).  The live transform applied to
the view is visual only and not modelled. -/
def handlePointerMove (st : SwipeState) (x y : ℚ) : SwipeState :=
  match st.xDown, st.yDown with
  | some xd, some yd =>
    if xd ≠ 0 ∧ yd ≠ 0 then
      { st with xDiff := some (xd - x), yDiff := some (yd - y) }
    else st
  | _, _ => st

/-- `SwipeManager.#click`: no dispatch on a negative index or a missing
view; otherwise the animation-mode dispatch runs and every handled mode
(immediately or via its scheduled timer) dispatches the synthetic click; an
unhandled mode throws before any dispatch. -/
def clickActions (env : GestureEnv) (index : Int) : List NavAction :=
  if index < 0 then []
  else if env.viewPresent = false then []
  else
    match clickAnimationDispatch env.cfg.animate with
    | .ok _ => [.click index]
    | .error _ => []

/-- `SwipeManager.#handlePointerEnd`: when both deltas are set, ignore
vertical or too-short movement, otherwise derive the direction from the
sign of the horizontal delta (flipped under right-to-left layout for the
search), search for a target tab and click it when found.  All four tracked
coordinates are reset at the end regardless of outcome. -/
def handlePointerEnd (env : GestureEnv) (st : SwipeState) :
    SwipeState × List NavAction :=
  let actions :=
    match st.xDiff, st.yDiff with
    | some xDiff, some yDiff =>
      if jsMathAbs xDiff < jsMathAbs yDiff then []
      else if jsMathAbs xDiff < jsMathAbs (env.screenWidth * env.cfg.swipe_amount) then []
      else
        let directionLeft := xDiff < 0
        let nextTabIndex := getNextTabIndex env.cfg env.tabs env.activeTabIndex
          (if env.rtl then !directionLeft else directionLeft)
        if 0 ≤ nextTabIndex then clickActions env nextTabIndex else []
    | _, _ => []
  ({ xDown := none, yDown := none, xDiff := none, yDiff := none }, actions)

/-- One pointer event processed by the corresponding listener. -/
def stepEvent (env : GestureEnv) (st : SwipeState) (ev : PointerEvent) :
    SwipeState × List NavAction :=
  match ev with
  | .touchStart touches exc => (handleTouchStart env st touches exc, [])
  | .touchMove x y => (handlePointerMove st x y, [])
  | .touchEnd => handlePointerEnd env st
  | .mouseStart x y exc => (handleMouseStart env st x y exc, [])
  | .mouseMove x y => (handlePointerMove st x y, [])
  | .mouseEnd => handlePointerEnd env st

/-- A sequence of pointer events processed in order, collecting the
navigation actions dispatched along the way. -/
def runEvents (env : GestureEnv) (st : SwipeState) :
    List PointerEvent → SwipeState × List NavAction
  | [] => (st, [])
  | ev :: rest =>
    let r := stepEvent env st ev
    let rr := runEvents env r.1 rest
    (rr.1, r.2 ++ rr.2)

/-- Side effects of a resolver, recorded as a trace: the structural
observers it hosts being disconnected (one event per keep-alive child) or
re-connected, and the stored removed/refreshed callbacks being invoked. -/
inductive PageEvent
  | disconnectObserver
  | removedCallback
  | connectObserver
  | refreshedCallback
deriving DecidableEq, Repr

/-- The mutable cell of one `PageObject`: the cached node, the candidate
selectors, how many keep-alive children (with their `MutationObserver`s)
it hosts, and whether `watchChanges` stored callbacks. -/
structure PageObjectState (Node : Type) where
  domNode : Option Node := none
  selectors : List String
  keepAliveChildren : Nat := 0
  hasRefreshedCallback : Bool := false
  hasRemovedCallback : Bool := false
deriving DecidableEq, Repr

/-- The DOM as one resolver sees it: connectivity of nodes to the
document, the effective parent context `getParentNode()` yields (parent
node or its shadow root; `none` when absent), and `querySelector`
restricted to `HTMLElement` results. -/
structure DomEnv (Node Ctx : Type) where
  connected : Node → Bool
  parentCtx : Option Ctx
  query : Ctx → String → Option Node

/-- The selector loop of `PageObject.#refreshDomNode`: first selector with
a matching element wins. -/
def firstSelectorMatch {Node Ctx : Type} (query : Ctx → String → Option Node)
    (ctx : Ctx) : List String → Option Node
  | [] => none
  | sel :: rest =>
    match query ctx sel with
    | some n => some n
    | none => firstSelectorMatch query ctx rest

/-- The resolution outcome of `#refreshDomNode` for a selector list. -/
def resolveOutcome {Node Ctx : Type} (env : DomEnv Node Ctx)
    (selectors : List String) : Option Node :=
  match env.parentCtx with
  | none => none
  | some ctx => firstSelectorMatch env.query ctx selectors

/-- `PageObject.invalidateDomNode`: disconnect every hosted child observer,
invoke the removed callback when stored, and clear the cache.  The
keep-alive registrations themselves survive (only their observers are
disconnected). -/
def invalidateDomNode {Node : Type} (po : PageObjectState Node) :
    PageObjectState Node × List PageEvent :=
  ({ po with domNode := none },
   List.replicate po.keepAliveChildren .disconnectObserver
     ++ (if po.hasRemovedCallback then [.removedCallback] else []))

/-- `PageObject.#refreshDomNode`: resolve against the parent context; on
success re-connect the hosted child observers and invoke the refreshed
callback when stored. -/
def refreshDomNode {Node Ctx : Type} (env : DomEnv Node Ctx)
    (po : PageObjectState Node) : PageObjectState Node × List PageEvent :=
  let newNode := resolveOutcome env po.selectors
  ({ po with domNode := newNode },
   match newNode with
   | none => []
   | some _ =>
     List.replicate po.keepAliveChildren .connectObserver
       ++ (if po.hasRefreshedCallback then [.refreshedCallback] else []))

/-- The body of `PageObject.getDomNode` with the self-call made explicit:
refresh when nothing is cached; otherwise check staleness
(`!(domNode?.isConnected ?? false)`), and on a stale node invalidate and
re-enter.  The re-entry always lands in the refresh branch (the cache was
just cleared), so fuel `2` realizes the source recursion exactly. -/
def getDomNodeGo {Node Ctx : Type} (env : DomEnv Node Ctx) :
    Nat → PageObjectState Node → PageObjectState Node × List PageEvent
  | 0, po => (po, [])
  | fuel + 1, po =>
    match po.domNode with
    | none => refreshDomNode env po
    | some n =>
      if env.connected n then (po, [])
      else
        let r1 := invalidateDomNode po
        let r2 := getDomNodeGo env fuel r1.1
        (r2.1, r1.2 ++ r2.2)

/-- `PageObject.getDomNode`; the returned node is the final `domNode`. -/
def getDomNode {Node Ctx : Type} (env : DomEnv Node Ctx)
    (po : PageObjectState Node) : PageObjectState Node × List PageEvent :=
  getDomNodeGo env 2 po

/-- A concrete raw configuration that only turns swiping off. -/
def rawEnableOff : Option RawValue := some (.obj { enable := some false })

/-- The snapshot `rawEnableOff` parses to. -/
def cfgEnableOff : Config := { enable := false }

/-- A concrete gesture environment: default settings, a 100-wide screen,
four visible tabs with the third active, and a resolvable view. -/
def gestureEnvW : GestureEnv :=
  { cfg := {}, screenWidth := 100, rtl := false,
    tabs := [{}, {}, {}, {}], activeTabIndex := 2, viewPresent := true }

/-- A concrete DOM environment over `Nat` nodes: only node `1` is
connected, and every query resolves to it. -/
def domEnvW : DomEnv Nat Unit :=
  { connected := fun m => m = 1, parentCtx := some (), query := fun _ _ => some 1 }

/-- A resolver state caching the disconnected node `0`, hosting one child
observer, with both callbacks stored. -/
def poW : PageObjectState Nat :=
  { domNode := some 0, selectors := ["ha-tabs"], keepAliveChildren := 1,
    hasRefreshedCallback := true, hasRemovedCallback := true }

lemma validLoggerLevel_switch_isOk {s : Option String}
    (h : validLoggerLevelField s = true) : (loggerLevelSwitch s).isOk = true := by
  match s with
  | none => rfl
  | some v =>
    simp only [validLoggerLevelField, Bool.or_eq_true, decide_eq_true_eq] at h
    simp only [loggerLevelSwitch]
    rcases h with (((h | h) | h) | h) | h <;> subst h <;> rfl

/-- The parse never actually throws: the schema guard precedes the
logger-level switch, so the switch only ever sees valid strings. -/
lemma parseConfigE_isOk (rawConfig : Option RawValue) :
    (parseConfigE rawConfig).isOk = true := by
  match rawConfig with
  | none => rfl
  | some (.illTyped t) => rfl
  | some (.obj f) =>
    unfold parseConfigE
    by_cases hv : instanceOfSwipeNavigationConfig (some (.obj f)) = false
    · rw [if_pos hv]; rfl
    · rw [if_neg hv]
      show (Except.map (fun ll => some (applyConfigFields f ll))
        (loggerLevelSwitch f.logger_level)).isOk = true
      have hv' : validLoggerLevelField f.logger_level = true := by
        simp only [instanceOfSwipeNavigationConfig, Bool.not_eq_false,
          Bool.and_eq_true] at hv
        exact hv.2
      have hok := validLoggerLevel_switch_isOk hv'
      cases hsw : loggerLevelSwitch f.logger_level with
      | error e => rw [hsw] at hok; exact Bool.noConfusion hok
      | ok ll => rfl


lemma emod_congr {L a b : Int} (h : L ∣ a - b) : a % L = b % L := by
  rw [Int.emod_eq_emod_iff_emod_sub_eq_zero]
  exact Int.emod_eq_zero_of_dvd h

lemma neg_one_emod {L : Int} (hL : 0 < L) : (-1 : Int) % L = L - 1 := by
  have h : (-1 : Int) % L = (L - 1) % L := by
    apply emod_congr
    exact ⟨-1, by ring⟩
  rw [h, Int.emod_eq_of_lt (by omega) (by omega)]

lemma wrapIndex_bounds (cfg : Config) {L next : Int} (hL : 0 < L)
    (h : wrapIndex cfg L next ≠ -1) (hb1 : -1 ≤ next) (hb2 : next ≤ L) :
    0 ≤ wrapIndex cfg L next ∧ wrapIndex cfg L next < L := by
  unfold wrapIndex at h ⊢
  split_ifs at h ⊢ <;> omega

lemma wrapIndex_emod (cfg : Config) {L next : Int} (hL : 0 < L)
    (h : wrapIndex cfg L next ≠ -1) (hb1 : -1 ≤ next) (hb2 : next ≤ L) :
    wrapIndex cfg L next = next % L := by
  unfold wrapIndex at h ⊢
  split_ifs at h ⊢ with h1 h2 h3
  · subst h1
    rw [neg_one_emod hL]
  · omega
  · subst h3
    rw [Int.emod_self]
  · omega
  · rw [Int.emod_eq_of_lt (by omega) (by omega)]

/-- Soundness of the search loop together with its termination bound: from
an in-range start and with fuel exceeding the modular distance back to the
active index, the loop yields `-1` or an in-range, non-active, non-skipped
index (in particular it never exhausts its fuel). -/
lemma nextTabLoop_sound (cfg : Config) (tabs : List Tab) (active increment : Int)
    (hinc : increment = 1 ∨ increment = -1)
    (ha0 : 0 ≤ active) (haL : active < (tabs.length : Int)) :
    ∀ fuel : Nat, ∀ cur : Int, 0 ≤ cur → cur < (tabs.length : Int) →
      ((increment * (active - cur) - 1) % (tabs.length : Int)).toNat < fuel →
      nextTabLoop cfg tabs active increment fuel cur = -1 ∨
        (0 ≤ nextTabLoop cfg tabs active increment fuel cur ∧
         nextTabLoop cfg tabs active increment fuel cur < (tabs.length : Int) ∧
         nextTabLoop cfg tabs active increment fuel cur ≠ active ∧
         shouldSkip cfg tabs (nextTabLoop cfg tabs active increment fuel cur) = false) := by
  have hL : 0 < (tabs.length : Int) := lt_of_le_of_lt ha0 haL
  have hsq : increment * increment = 1 := by rcases hinc with h | h <;> subst h <;> norm_num
  intro fuel
  induction fuel with
  | zero => intro cur _ _ hd; exact absurd hd (Nat.not_lt_zero _)
  | succ fuel ih =>
    intro cur h0 h1 hd
    simp only [nextTabLoop]
    by_cases hA : wrapIndex cfg (tabs.length : Int) (cur + increment) = active
    · rw [if_pos hA]
      exact Or.inl rfl
    · rw [if_neg hA]
      by_cases hE : wrapIndex cfg (tabs.length : Int) (cur + increment) = -1
      · rw [if_pos hE]
        exact Or.inl rfl
      · rw [if_neg hE]
        have hb1 : -1 ≤ cur + increment := by rcases hinc with h | h <;> omega
        have hb2 : cur + increment ≤ (tabs.length : Int) := by
          rcases hinc with h | h <;> omega
        have hw := wrapIndex_bounds cfg hL hE hb1 hb2
        by_cases hS : shouldSkip cfg tabs
            (wrapIndex cfg (tabs.length : Int) (cur + increment)) = true
        · rw [if_pos hS]
          apply ih _ hw.1 hw.2
          -- The modular distance to the active index decreases by one.
          have hwm := wrapIndex_emod cfg hL hE hb1 hb2
          set L : Int := (tabs.length : Int) with hLdef
          set w : Int := wrapIndex cfg L (cur + increment) with hwdef
          set X : Int := increment * (active - cur) - 1 with hX
          have hX0 : 0 ≤ X % L := Int.emod_nonneg X (by omega)
          have hXL : X % L < L := Int.emod_lt_of_pos X hL
          -- dist w is (X - 1) % L
          have hshift : (increment * (active - w) - 1) % L = (X - 1) % L := by
            apply emod_congr
            have hdvd : L ∣ (cur + increment) - w := by
              rw [hwm, Int.emod_def]
              exact ⟨(cur + increment) / L, by ring⟩
            rcases hdvd with ⟨q, hq⟩
            refine ⟨increment * q, ?_⟩
            have : increment * (active - w) - 1 - (X - 1)
                = increment * ((cur + increment) - w) - (increment * increment - 1) := by
              rw [hX]; ring
            rw [this, hsq, hq]; ring
          -- X % L cannot be 0, else w would equal active.
          have hXpos : 1 ≤ X % L := by
            rcases Int.lt_or_lt_of_ne (a := X % L) (b := 0) (by
              intro h
              have hdvd : L ∣ X := Int.dvd_of_emod_eq_zero h
              have hdvd2 : L ∣ active - (cur + increment) := by
                rcases hdvd with ⟨q, hq⟩
                have key : active - (cur + increment) = increment * X := by
                  have h2 : increment * X
                      = increment * increment * (active - cur) - increment := by
                    rw [hX]; ring
                  rw [h2, hsq]; ring
                rw [key, hq]
                exact ⟨increment * q, by ring⟩
              have : active % L = (cur + increment) % L := emod_congr hdvd2
              rw [Int.emod_eq_of_lt ha0 haL] at this
              exact hA (by rw [hwm, ← this])) with h | h
            · omega
            · omega
          have hsub : (X - 1) % L = X % L - 1 := by
            have h1' : (X - 1) % L = (X % L - 1) % L := by
              apply emod_congr
              have h2 : X - 1 - (X % L - 1) = X - X % L := by ring
              rw [h2, Int.emod_def]
              exact ⟨X / L, by ring⟩
            rw [h1', Int.emod_eq_of_lt (by omega) (by omega)]
          -- Conclude by arithmetic on toNat.
          have hdist : ((increment * (active - w) - 1) % L).toNat
              = (X % L).toNat - 1 := by
            rw [hshift, hsub]; omega
          rw [hdist]
          omega
        · rw [if_neg hS]
          refine Or.inr ⟨hw.1, hw.2, hA, ?_⟩
          exact Bool.not_eq_true _ ▸ (by simpa using hS)

/-- The loop's conditions do not depend on the fuel: once the fuel suffices
(result is not the out-of-fuel marker `-2`), more fuel changes nothing. -/
lemma nextTabLoop_fuel_mono (cfg : Config) (tabs : List Tab) (active increment : Int) :
    ∀ fuel : Nat, ∀ cur : Int,
      nextTabLoop cfg tabs active increment fuel cur ≠ -2 →
      ∀ fuel' : Nat, fuel ≤ fuel' →
        nextTabLoop cfg tabs active increment fuel' cur
          = nextTabLoop cfg tabs active increment fuel cur := by
  intro fuel
  induction fuel with
  | zero => intro cur h _ _; exact absurd rfl h
  | succ fuel ih =>
    intro cur h fuel' hf
    obtain ⟨fuel'', rfl⟩ : ∃ k, fuel' = k + 1 := ⟨fuel' - 1, by omega⟩
    have hf2 : fuel ≤ fuel'' := by omega
    simp only [nextTabLoop] at h ⊢
    by_cases hA : wrapIndex cfg (tabs.length : Int) (cur + increment) = active
    · simp only [if_pos hA]
    · simp only [if_neg hA] at h ⊢
      by_cases hE : wrapIndex cfg (tabs.length : Int) (cur + increment) = -1
      · simp only [if_pos hE]
      · simp only [if_neg hE] at h ⊢
        by_cases hS : shouldSkip cfg tabs
            (wrapIndex cfg (tabs.length : Int) (cur + increment)) = true
        · simp only [if_pos hS] at h ⊢
          exact ih _ h _ hf2
        · simp only [if_neg hS]

/-- Combined behaviour of `getNextTabIndex` for an active index as
`indexOf` produces it (`-1` or in range): the result is `-1` or an
in-range, non-active, non-skipped index. -/
lemma getNextTabIndex_spec (cfg : Config) (tabs : List Tab) (active : Int) (dir : Bool)
    (h : active = -1 ∨ (0 ≤ active ∧ active < (tabs.length : Int))) :
    getNextTabIndex cfg tabs active dir = -1 ∨
      (0 ≤ getNextTabIndex cfg tabs active dir ∧
       getNextTabIndex cfg tabs active dir < (tabs.length : Int) ∧
       getNextTabIndex cfg tabs active dir ≠ active ∧
       shouldSkip cfg tabs (getNextTabIndex cfg tabs active dir) = false) := by
  rcases h with h | ⟨h0, h1⟩
  · subst h
    left
    simp [getNextTabIndex]
  · unfold getNextTabIndex
    have hne : ¬ active = -1 := by omega
    rw [if_neg hne]
    have hinc : incrementOf dir = 1 ∨ incrementOf dir = -1 := by
      unfold incrementOf; split_ifs <;> simp
    refine nextTabLoop_sound cfg tabs active _ hinc h0 h1 _ _ h0 h1 ?_
    have hz : incrementOf dir * (active - active) - 1 = -1 := by ring
    rw [hz, neg_one_emod (by omega)]
    omega


lemma readConfig_rawConfig (s : ConfigState) (f : Option RawValue) :
    (readConfig s f).1.rawConfig = f := by
  unfold readConfig
  by_cases h : f = s.rawConfig
  · rw [if_pos h]
    exact h.symm
  · rw [if_neg h]
    cases hp : parseConfig f with
    | none => simp [hp]
    | some c =>
      simp only [hp]
      split_ifs <;> rfl

lemma firstSelectorMatch_connected {Node Ctx : Type} (env : DomEnv Node Ctx)
    (hq : ∀ (ctx : Ctx) (sel : String) (n : Node),
      env.query ctx sel = some n → env.connected n = true) :
    ∀ (sels : List String) (ctx : Ctx) (n : Node),
      firstSelectorMatch env.query ctx sels = some n → env.connected n = true := by
  intro sels
  induction sels with
  | nil => intro ctx n h; exact absurd h (by simp [firstSelectorMatch])
  | cons sel rest ih =>
    intro ctx n h
    unfold firstSelectorMatch at h
    cases hx : env.query ctx sel with
    | some m =>
      rw [hx] at h
      dsimp only at h
      exact hq ctx sel n (hx.trans h)
    | none =>
      rw [hx] at h
      dsimp only at h
      exact ih ctx n h

lemma resolveOutcome_connected {Node Ctx : Type} (env : DomEnv Node Ctx)
    (hq : ∀ (ctx : Ctx) (sel : String) (n : Node),
      env.query ctx sel = some n → env.connected n = true)
    (sels : List String) (n : Node)
    (h : resolveOutcome env sels = some n) : env.connected n = true := by
  unfold resolveOutcome at h
  cases hc : env.parentCtx with
  | none => rw [hc] at h; exact absurd h (by simp)
  | some ctx => rw [hc] at h; exact firstSelectorMatch_connected env hq sels ctx n h

/-- Whatever the starting state, a node cached at the end of `getDomNode`
is connected, provided fresh query results are connected. -/
lemma getDomNode_connected {Node Ctx : Type} (env : DomEnv Node Ctx)
    (hq : ∀ (ctx : Ctx) (sel : String) (n : Node),
      env.query ctx sel = some n → env.connected n = true)
    (po : PageObjectState Node) (m : Node)
    (h : (getDomNode env po).1.domNode = some m) : env.connected m = true := by
  unfold getDomNode getDomNodeGo at h
  cases hd : po.domNode with
  | none =>
    rw [hd] at h
    exact resolveOutcome_connected env hq po.selectors m h
  | some n =>
    rw [hd] at h
    dsimp only at h
    by_cases hc : env.connected n = true
    · rw [if_pos hc] at h
      dsimp only at h
      rw [hd] at h
      exact (Option.some.inj h) ▸ hc
    · rw [if_neg hc] at h
      exact resolveOutcome_connected env hq po.selectors m h

/-- C1: For every sequence of configuration reads, observers are notified
synchronously, in registration order, exactly once per effective change:
no notification when the fetched raw value deep-equals the previous one,
none when the raw value differs but the parsed, defaulted snapshot
deep-equals the current one, and a notification of every registered
observer (in order) exactly when the parsed snapshot differs; reading the
same raw value again right after any read changes nothing and notifies
nobody (parsing is idempotent). -/
theorem readConfig_notifies_once_per_effective_change :
    (∀ (s : ConfigState) (fetched : Option RawValue),
       fetched = s.rawConfig → readConfig s fetched = (s, []))
    ∧ (∀ (s : ConfigState) (fetched : Option RawValue) (c : Config),
       fetched ≠ s.rawConfig → parseConfig fetched = some c →
       c = s.currentConfig →
       readConfig s fetched = ({ s with rawConfig := fetched }, []))
    ∧ (∀ (s : ConfigState) (fetched : Option RawValue) (c : Config),
       fetched ≠ s.rawConfig → parseConfig fetched = some c →
       c ≠ s.currentConfig →
       readConfig s fetched
         = ({ s with rawConfig := fetched, currentConfig := c },
            s.configObservers))
    ∧ (∀ (s : ConfigState) (fetched : Option RawValue),
       readConfig (readConfig s fetched).1 fetched
         = ((readConfig s fetched).1, [])) := by
  refine ⟨?_, ?_, ?_, ?_⟩
  · intro s fetched h
    unfold readConfig
    rw [if_pos h]
  · intro s fetched c h1 h2 h3
    unfold readConfig
    rw [if_neg h1]
    simp only [h2]
    rw [if_pos h3]
  · intro s fetched c h1 h2 h3
    unfold readConfig
    rw [if_neg h1]
    simp only [h2]
    rw [if_neg h3]
  · intro s fetched
    have h := readConfig_rawConfig s fetched
    generalize hgen : (readConfig s fetched).1 = s' at h ⊢
    unfold readConfig
    rw [if_pos h.symm]

/-- C1 witness: a read of a changed, parseable raw value that changes the
snapshot notifies both registered observers in order; re-reading the same
raw value immediately afterwards notifies nobody. -/
theorem readConfig_notifies_once_per_effective_change_witness :
    readConfig { configObservers := [1, 2] } rawEnableOff
      = ({ rawConfig := rawEnableOff, currentConfig := cfgEnableOff,
           configObservers := [1, 2] }, [1, 2])
    ∧ readConfig (readConfig { configObservers := [1, 2] } rawEnableOff).1 rawEnableOff
      = ((readConfig { configObservers := [1, 2] } rawEnableOff).1, []) :=
  ⟨readConfig_notifies_once_per_effective_change.2.2.1
      { configObservers := [1, 2] } rawEnableOff cfgEnableOff
      (fun h => Option.noConfusion h) rfl
      (fun h => Bool.noConfusion (congrArg Config.enable h)),
   readConfig_notifies_once_per_effective_change.2.2.2
      { configObservers := [1, 2] } rawEnableOff⟩

/-- C7: A fetched raw value that fails schema validation is rejected
wholesale: the current snapshot is retained unchanged (hence every field
of it), and no observer is notified. -/
theorem readConfig_invalid_raw_retains_snapshot
    (s : ConfigState) (fetched : Option RawValue)
    (hinv : instanceOfSwipeNavigationConfig fetched = false) :
    (readConfig s fetched).1.currentConfig = s.currentConfig
    ∧ (readConfig s fetched).2 = [] := by
  have hp : parseConfig fetched = none := by
    unfold parseConfig parseConfigE
    rw [if_pos hinv]
  unfold readConfig
  by_cases h : fetched = s.rawConfig
  · rw [if_pos h]
    exact ⟨rfl, rfl⟩
  · rw [if_neg h]
    simp [hp]

/-- C7 witness: a structurally invalid raw value leaves the default
snapshot in place and notifies no observer, even though the raw value
changed. -/
theorem readConfig_invalid_raw_retains_snapshot_witness :
    (readConfig { configObservers := [7] } (some (.illTyped 0))).1.currentConfig
      = ({} : Config)
    ∧ (readConfig { configObservers := [7] } (some (.illTyped 0))).2 = [] :=
  readConfig_invalid_raw_retains_snapshot { configObservers := [7] }
    (some (.illTyped 0)) rfl

/-- C8: Parsing a `skip_tabs` value strips all whitespace before splitting
on commas and parses each piece as an integer, so `" 1, 3,5 "` parses to
the ordered set `{1, 3, 5}`. -/
theorem parseSkipTabs_whitespace_example :
    stripWhitespace " 1, 3,5 " = "1,3,5"
    ∧ parseSkipTabs " 1, 3,5 " = [some 1, some 3, some 5] := by
  refine ⟨by decide, by decide⟩

/-- C9: Each closed-enum dispatch — the `logger_level` switch during
parsing and the animation-mode dispatch of the tab-change routine — throws
on an unhandled variant rather than silently doing nothing; and under the
precondition that the raw value passed schema validation (respectively
that the animation mode is one of none/swipe/fade/flip), the throwing
branch is unreachable. -/
theorem enum_dispatch_fail_fast :
    (∀ v : String, validLoggerLevelField (some v) = false →
       loggerLevelSwitch (some v) = .error ("Unhandled case: " ++ v))
    ∧ (∀ r : Option RawValue, instanceOfSwipeNavigationConfig r = true →
       (parseConfigE r).isOk = true)
    ∧ (∀ a : String, validAnimateField (some a) = false →
       clickAnimationDispatch a = .error ("Unhandled case: " ++ a))
    ∧ (∀ a : String, validAnimateField (some a) = true →
       (clickAnimationDispatch a).isOk = true) := by
  refine ⟨?_, ?_, ?_, ?_⟩
  · intro v h
    simp only [validLoggerLevelField, Bool.or_eq_false_iff,
      decide_eq_false_iff_not] at h
    obtain ⟨⟨⟨⟨h1, h2⟩, h3⟩, h4⟩, h5⟩ := h
    simp [loggerLevelSwitch, h1, h2, h3, h4, h5]
  · intro r _
    exact parseConfigE_isOk r
  · intro a h
    simp only [validAnimateField, Bool.or_eq_false_iff,
      decide_eq_false_iff_not] at h
    obtain ⟨⟨⟨h1, h2⟩, h3⟩, h4⟩ := h
    simp [clickAnimationDispatch, h1, h2, h3, h4]
  · intro a h
    simp only [validAnimateField, Bool.or_eq_true, decide_eq_true_eq] at h
    rcases h with ((h | h) | h) | h <;> subst h <;> rfl

/-- C9 witness: the dispatches throw at the unhandled string `"bogus"` and
succeed on validated input (an empty raw object; the handled `"fade"`). -/
theorem enum_dispatch_fail_fast_witness :
    loggerLevelSwitch (some "bogus") = .error ("Unhandled case: " ++ "bogus")
    ∧ (parseConfigE (some (.obj {}))).isOk = true
    ∧ clickAnimationDispatch "bogus" = .error ("Unhandled case: " ++ "bogus")
    ∧ (clickAnimationDispatch "fade").isOk = true :=
  ⟨enum_dispatch_fail_fast.1 "bogus" (by decide),
   enum_dispatch_fail_fast.2.1 (some (.obj {})) (by decide),
   enum_dispatch_fail_fast.2.2.1 "bogus" (by decide),
   enum_dispatch_fail_fast.2.2.2 "fade" (by decide)⟩

/-- C3: The target-tab search behaves as specified on the concrete cases:
with tabs `[0,1,2,3]`, active `2`, wrap on, no skips, a left swipe
(`directionLeft = false`, since the code's flag is the sign of
`xDown - x`) yields `3` and again from `3` yields `0` (wrap); with
skip-list `{1,2}` and active `0` the search skips both and lands on `3`,
and reports no target when only indices `0`-`2` exist; without wrap the
edge yields no target; with skip-hidden on, a `display:none` tab is
skipped. -/
theorem getNextTabIndex_concrete_behaviour :
    getNextTabIndex { skip_hidden := false } [{}, {}, {}, {}] 2 false = 3
    ∧ getNextTabIndex { skip_hidden := false } [{}, {}, {}, {}] 3 false = 0
    ∧ getNextTabIndex { skip_tabs := [some 1, some 2] } [{}, {}, {}, {}] 0 false = 3
    ∧ getNextTabIndex { skip_tabs := [some 1, some 2] } [{}, {}, {}] 0 false = -1
    ∧ getNextTabIndex { skip_hidden := false, wrap := false } [{}, {}, {}, {}] 3 false = -1
    ∧ getNextTabIndex {} [{}, { displayNone := true }, {}, {}] 0 false = 2 :=
  ⟨by decide, by decide, by decide, by decide, by decide, by decide⟩

/-- C4: For every tab list, active index as `indexOf` yields it, and
settings, the search terminates within one full cycle: with fuel
`tabs.length + 1` the out-of-fuel marker `-2` is never returned, and any
larger fuel gives the identical result (so the loop is insensitive to
extra fuel: it has already stopped). -/
theorem getNextTabIndex_terminates_one_cycle
    (cfg : Config) (tabs : List Tab) (active : Int) (dir : Bool)
    (h : active = -1 ∨ (0 ≤ active ∧ active < (tabs.length : Int))) :
    getNextTabIndex cfg tabs active dir ≠ -2
    ∧ (0 ≤ active → active < (tabs.length : Int) →
       ∀ fuel : Nat, tabs.length + 1 ≤ fuel →
         nextTabLoop cfg tabs active (incrementOf dir) fuel active
           = getNextTabIndex cfg tabs active dir) := by
  have hspec := getNextTabIndex_spec cfg tabs active dir h
  have hne : getNextTabIndex cfg tabs active dir ≠ -2 := by
    rcases hspec with h1 | h1
    · rw [h1]; decide
    · intro heq
      rw [heq] at h1
      exact absurd h1.1 (by decide)
  refine ⟨hne, ?_⟩
  intro h0 h1 fuel hf
  unfold getNextTabIndex at hne ⊢
  rw [if_neg (by omega : ¬ active = -1)] at hne ⊢
  exact nextTabLoop_fuel_mono cfg tabs active (incrementOf dir) _ _ hne _ hf

/-- C4 witness: the fully degenerate case (every tab in the skip list)
terminates without exhausting its fuel, and extra fuel (here 10) changes
nothing. -/
theorem getNextTabIndex_terminates_one_cycle_witness :
    getNextTabIndex { skip_tabs := [some 0, some 1, some 2, some 3] }
        [{}, {}, {}, {}] 0 false ≠ -2
    ∧ nextTabLoop { skip_tabs := [some 0, some 1, some 2, some 3] }
        [{}, {}, {}, {}] 0 (incrementOf false) 10 0
      = getNextTabIndex { skip_tabs := [some 0, some 1, some 2, some 3] }
          [{}, {}, {}, {}] 0 false := by
  have h := getNextTabIndex_terminates_one_cycle
    { skip_tabs := [some 0, some 1, some 2, some 3] } [{}, {}, {}, {}] 0 false
    (Or.inr ⟨by decide, by decide⟩)
  exact ⟨h.1, h.2 (by decide) (by decide) 10 (by decide)⟩

/-- C10: The search returns `-1` or an index that is in range, different
from the active index, not in the skip list, and — when skip-hidden is
enabled — not `display:none`. -/
theorem getNextTabIndex_result_valid
    (cfg : Config) (tabs : List Tab) (active : Int) (dir : Bool)
    (h : active = -1 ∨ (0 ≤ active ∧ active < (tabs.length : Int))) :
    getNextTabIndex cfg tabs active dir = -1
    ∨ (0 ≤ getNextTabIndex cfg tabs active dir
       ∧ getNextTabIndex cfg tabs active dir < (tabs.length : Int)
       ∧ getNextTabIndex cfg tabs active dir ≠ active
       ∧ cfg.skip_tabs.contains (some (getNextTabIndex cfg tabs active dir)) = false
       ∧ (cfg.skip_hidden = true →
          (tabs.getD (getNextTabIndex cfg tabs active dir).toNat
            default).displayNone = false)) := by
  rcases getNextTabIndex_spec cfg tabs active dir h with h1 | ⟨h1, h2, h3, h4⟩
  · exact Or.inl h1
  · right
    unfold shouldSkip at h4
    simp only [Bool.or_eq_false_iff, Bool.and_eq_false_iff] at h4
    refine ⟨h1, h2, h3, h4.1, ?_⟩
    intro hh
    rcases h4.2 with h5 | h5
    · rw [hh] at h5; exact Bool.noConfusion h5
    · exact h5

/-- C10 witness: with tab `1` skipped, active `0`, searching rightwards
lands on the valid target `2`. -/
theorem getNextTabIndex_result_valid_witness :
    getNextTabIndex { skip_tabs := [some 1] } [{}, {}, {}, {}] 0 false = -1
    ∨ (0 ≤ getNextTabIndex { skip_tabs := [some 1] } [{}, {}, {}, {}] 0 false
       ∧ getNextTabIndex { skip_tabs := [some 1] } [{}, {}, {}, {}] 0 false
           < (([{}, {}, {}, {}] : List Tab).length : Int)
       ∧ getNextTabIndex { skip_tabs := [some 1] } [{}, {}, {}, {}] 0 false ≠ 0
       ∧ (({ skip_tabs := [some 1] } : Config)).skip_tabs.contains
           (some (getNextTabIndex { skip_tabs := [some 1] } [{}, {}, {}, {}] 0 false))
           = false
       ∧ (({ skip_tabs := [some 1] } : Config).skip_hidden = true →
          (([{}, {}, {}, {}] : List Tab).getD
            (getNextTabIndex { skip_tabs := [some 1] } [{}, {}, {}, {}] 0 false).toNat
            default).displayNone = false)) :=
  getNextTabIndex_result_valid { skip_tabs := [some 1] } [{}, {}, {}, {}] 0 false
    (Or.inr ⟨by decide, by decide⟩)

/-- C5 counterexample: a single-touch start, a move (computing deltas),
then a multitouch abort leaves the start coordinates cleared while both
deltas are still set — the coordinates are not cleared together as a
unit. -/
theorem swipe_session_clear_counterexample :
    (runEvents gestureEnvW {}
       [ .touchStart [(10, 10)] false,
         .touchMove 4 9,
         .touchStart [(1, 1), (2, 2)] false ]).1
      = { xDown := none, yDown := none, xDiff := some 6, yDiff := some 1 } := by
  norm_num [runEvents, stepEvent, handleTouchStart, handlePointerMove, gestureEnvW]

/-- C5 (amended): On the pointer-end transition all four tracked
coordinates are cleared unconditionally, regardless of outcome; but when a
session is aborted by multitouch or by disabled mouse-swipe configuration
only the start coordinates are cleared (previously computed deltas
persist), and when swipe navigation is disabled entirely nothing is
cleared. -/
theorem swipe_session_clearing_behaviour :
    (∀ (env : GestureEnv) (st : SwipeState),
       (handlePointerEnd env st).1
         = { xDown := none, yDown := none, xDiff := none, yDiff := none })
    ∧ (∀ (env : GestureEnv) (st : SwipeState) (touches : List (ℚ × ℚ)) (exc : Bool),
       env.cfg.enable = true → touches.length > 1 →
       handleTouchStart env st touches exc
         = { st with xDown := none, yDown := none })
    ∧ (∀ (env : GestureEnv) (st : SwipeState) (x y : ℚ) (exc : Bool),
       env.cfg.enable = true → env.cfg.enable_mouse_swipe = false →
       handleMouseStart env st x y exc
         = { st with xDown := none, yDown := none })
    ∧ (∀ (env : GestureEnv) (st : SwipeState) (touches : List (ℚ × ℚ)) (exc : Bool),
       env.cfg.enable = false → handleTouchStart env st touches exc = st) := by
  refine ⟨fun env st => rfl, ?_, ?_, ?_⟩
  · intro env st touches exc h1 h2
    simp [handleTouchStart, h1, h2]
  · intro env st x y exc h1 h2
    simp [handleMouseStart, h1, h2]
  · intro env st touches exc h1
    simp [handleTouchStart, h1]

/-- C5 (amended) witness: at a concrete state with a delta set, pointer-end
clears all four coordinates; the multitouch and mouse-disabled aborts
clear only the start coordinates, leaving the delta in place. -/
theorem swipe_session_clearing_behaviour_witness :
    (handlePointerEnd gestureEnvW { xDown := some 3, xDiff := some 6 }).1
      = { xDown := none, yDown := none, xDiff := none, yDiff := none }
    ∧ handleTouchStart gestureEnvW { xDown := some 3, xDiff := some 6 }
        [(1, 1), (2, 2)] false
      = { xDown := none, yDown := none, xDiff := some 6, yDiff := none }
    ∧ handleMouseStart { gestureEnvW with cfg := { enable_mouse_swipe := false } }
        { xDown := some 3, xDiff := some 6 } 3 4 false
      = { xDown := none, yDown := none, xDiff := some 6, yDiff := none } :=
  ⟨swipe_session_clearing_behaviour.1 gestureEnvW { xDown := some 3, xDiff := some 6 },
   swipe_session_clearing_behaviour.2.1 gestureEnvW
     { xDown := some 3, xDiff := some 6 } [(1, 1), (2, 2)] false rfl (by decide),
   swipe_session_clearing_behaviour.2.2.1
     { gestureEnvW with cfg := { enable_mouse_swipe := false } }
     { xDown := some 3, xDiff := some 6 } 3 4 false rfl rfl⟩

/-- C6 (code behaviour at the failing input): a touch interaction in which
a second simultaneous contact point is detected — after a single-finger
drag beyond the swipe threshold — still dispatches a navigation click on
`touchend`, because the multitouch abort clears only the start coordinates
and the stale deltas survive to the pointer-end decision. -/
theorem multitouch_gesture_still_navigates :
    runEvents gestureEnvW {}
      [ .touchStart [(100, 10)] false,
        .touchMove 40 10,
        .touchStart [(50, 50), (60, 60)] false,
        .touchEnd ]
    = ({ xDown := none, yDown := none, xDiff := none, yDiff := none },
       [.click 3]) := by
  norm_num [runEvents, stepEvent, handleTouchStart, handlePointerMove,
    handlePointerEnd, clickActions, clickAnimationDispatch, getNextTabIndex,
    nextTabLoop, wrapIndex, shouldSkip, jsMathAbs, incrementOf, gestureEnvW,
    List.getD, Int.toNat]

/-- C2: When the cached node has become disconnected, `getDomNode` does
not return the stale reference: it first invalidates the cache — the event
trace is exactly the invalidation events (observer disconnections, then
the removed callback when stored) followed by the re-resolution events —
and then re-resolves, caching the fresh outcome, which cannot be the
stale node; moreover (under the assumption that `querySelector` only
yields document-connected elements) a non-empty cached node after any
`getDomNode` call is always connected. -/
theorem getDomNode_invalidates_stale_before_reresolving
    {Node Ctx : Type} (env : DomEnv Node Ctx)
    (hq : ∀ (ctx : Ctx) (sel : String) (n : Node),
      env.query ctx sel = some n → env.connected n = true)
    (po : PageObjectState Node) (n : Node)
    (hn : po.domNode = some n) (hstale : env.connected n = false) :
    ((getDomNode env po).1.domNode = resolveOutcome env po.selectors
     ∧ (getDomNode env po).1.domNode ≠ some n
     ∧ (getDomNode env po).2
         = (invalidateDomNode po).2
           ++ (refreshDomNode env (invalidateDomNode po).1).2
     ∧ (po.hasRemovedCallback = true →
        PageEvent.removedCallback ∈ (getDomNode env po).2))
    ∧ ∀ (po' : PageObjectState Node) (m : Node),
        (getDomNode env po').1.domNode = some m → env.connected m = true := by
  have hres : ∀ m : Node, resolveOutcome env po.selectors = some m →
      env.connected m = true :=
    fun m hm => resolveOutcome_connected env hq po.selectors m hm
  have hrun : getDomNode env po
      = ((refreshDomNode env (invalidateDomNode po).1).1,
         (invalidateDomNode po).2
           ++ (refreshDomNode env (invalidateDomNode po).1).2) := by
    unfold getDomNode getDomNodeGo
    rw [hn]
    dsimp only
    rw [if_neg (by rw [hstale]; exact Bool.noConfusion)]
    rfl
  refine ⟨⟨?_, ?_, ?_, ?_⟩, fun po' m hm => getDomNode_connected env hq po' m hm⟩
  · rw [hrun]
    rfl
  · rw [hrun]
    intro hcontra
    have hc := hres n hcontra
    rw [hstale] at hc
    exact Bool.noConfusion hc
  · rw [hrun]
  · rw [hrun]
    intro hcb
    unfold invalidateDomNode
    simp [hcb]

/-- C2 witness: a resolver caching the disconnected node `0` in an
environment resolving to the connected node `1`: the stale node is not
returned, the removed callback fires, and the fresh cache is connected. -/
theorem getDomNode_invalidates_stale_witness :
    (getDomNode domEnvW poW).1.domNode ≠ some 0
    ∧ PageEvent.removedCallback ∈ (getDomNode domEnvW poW).2
    ∧ (∀ m : Nat, (getDomNode domEnvW poW).1.domNode = some m →
        domEnvW.connected m = true) := by
  have h := getDomNode_invalidates_stale_before_reresolving domEnvW
    (fun ctx sel n hx => by rw [← Option.some.inj hx]; rfl) poW 0 rfl rfl
  exact ⟨h.1.2.1, h.1.2.2.2 rfl, fun m hm => h.2 poW m hm⟩

end SwipeNav
